import Mathlib

/-!
# Verification of the kubectl-rook-ceph health checker

A shallow embedding of `pkg/health/health.go` from the `kubectl-rook-ceph`
repository, together with proofs about its classification and sequencing
behaviour.

External collaborators are modelled as parameters:
* the orchestrator pod-listing client (`context.Clientset.CoreV1().Pods(ns).List`
  with a label selector) becomes `listPods : String → String → Except String (List PodRecord)`
  taking the namespace and the label selector (empty string for no selector);
  on success it yields the pod items, on failure the error text.  The generated
  client returns a non-nil empty `PodList` together with the error, so code
  that keeps going after logging the error iterates over an empty item list.
* `exec.RunCommandInOperatorPod` (the `ceph -s --format json` fetch) is
  modelled by handing each of the two sequential fetch results to `Health`
  directly as a byte list (`fetch1`, `fetch2`).
* `json.Unmarshal` into the `cephStatus` struct is modelled by an oracle
  `jsonDecode : List Nat → Except String cephStatus`.
* the `logging` package and `fmt` printing are modelled as an event trace
  (`Ev`); each function returns the list of events it emits, in order.
-/

namespace KubectlRookCeph

/-- A pod as consumed from the orchestrator: `Name`, `Status.Phase`,
`Namespace`, `Spec.NodeName` (the four fields the health checker reads).
The phase is the Kubernetes `PodPhase` string. -/
structure PodRecord where
  name : String
  phase : String
  ns : String
  nodeName : String
deriving DecidableEq, Repr

/-- `v1.PodRunning`. -/
def PodRunning : String := "Running"

/-- `PgStateEntry` from health.go: `state_name` and `count`. -/
structure PgStateEntry where
  stateName : String
  count : Int
deriving DecidableEq, Repr

/-- `healthStatus` from health.go: the `health.status` string. -/
structure healthStatus where
  status : String
deriving DecidableEq, Repr

/-- `pgMap` from health.go: the `pgmap.pgs_by_state` list. -/
structure pgMap where
  pgsByState : List PgStateEntry
deriving DecidableEq, Repr

/-- `cephStatus` from health.go: the decoded snapshot. -/
structure cephStatus where
  pgMap : pgMap
  health : healthStatus
deriving DecidableEq, Repr

/-- One output event: a leveled log line (`logging.Info` / `Warning` /
`Error` / `Fatal`), a tabular `fmt.Printf` pod-listing line, or the blank
line from `fmt.Println()`. -/
inductive Ev where
  | info (msg : String)
  | warning (msg : String)
  | error (msg : String)
  | fatal (msg : String)
  | printLine (line : String)
  | blank
deriving DecidableEq, Repr

/-- Is the event a Warning-channel log line? -/
def Ev.isWarning : Ev → Bool
  | .warning _ => true
  | _ => false

/-- Is the event a tabular pod-listing line? -/
def Ev.isPrintLine : Ev → Bool
  | .printLine _ => true
  | _ => false

/-- Is the event an Error-channel log line? -/
def Ev.isError : Ev → Bool
  | .error _ => true
  | _ => false

/-- Is the event an Info-channel log line? -/
def Ev.isInfo : Ev → Bool
  | .info _ => true
  | _ => false

/-- Does the first character list start with the second? -/
def startsWithList : List Char → List Char → Bool
  | _, [] => true
  | [], _ :: _ => false
  | c :: cs, d :: ds => c = d && startsWithList cs ds

/-- Does the character list `sub` occur contiguously inside the second list? -/
def containsSubList (sub : List Char) : List Char → Bool
  | [] => startsWithList [] sub
  | c :: cs => startsWithList (c :: cs) sub || containsSubList sub cs

/-- Go `strings.Contains(s, substr)`: substring containment. -/
def goContains (s substr : String) : Bool :=
  containsSubList substr.data s.data

/-- The `fmt.Printf("%s\t%s\t%s\t%s\n", ...)` pod-listing line. -/
def podLine (p : PodRecord) : String :=
  p.name ++ "\t" ++ p.phase ++ "\t" ++ p.ns ++ "\t" ++ p.nodeName ++ "\n"

/-- The loop body of the `nodeList` construction in `checkPodsOnNodes`:
insert the pod under its node name unless the node is already a key. -/
def nodeListStep (nodeList : List (String × String)) (p : PodRecord) : List (String × String) :=
  if p.nodeName ∈ nodeList.map Prod.fst then nodeList
  else nodeList ++ [(p.nodeName, p.name)]

/-- The `nodeList` map of `checkPodsOnNodes`, as an insertion-ordered
association list from node name to the first pod name seen on that node;
`len(nodeList)` is the length of this list. -/
def buildNodeList (items : List PodRecord) : List (String × String) :=
  items.foldl nodeListStep []

/-- `checkPodsOnNodes` from health.go: role node-distribution check.
On a listing error it logs an Error and keeps going with the empty item
list; warns when fewer than three distinct nodes host the role; always
prints one line per pod. -/
def checkPodsOnNodes (listPods : String → String → Except String (List PodRecord))
    (clusterNamespace label : String) : List Ev :=
  let daemonType : String :=
    if goContains label "osd" then "osd"
    else if goContains label "mon" then "mon"
    else ""
  let queried := listPods clusterNamespace label
  let errEvs : List Ev :=
    match queried with
    | .error e => [Ev.error ("failed to list " ++ daemonType ++ " pods with label " ++ label ++ ": " ++ e)]
    | .ok _ => []
  let items : List PodRecord :=
    match queried with
    | .error _ => []
    | .ok items => items
  let nodeList := buildNodeList items
  let warnEvs : List Ev :=
    if nodeList.length < 3 then
      [Ev.warning ("At least three " ++ daemonType ++ " pods should running on different nodes\n")]
    else []
  errEvs ++ warnEvs ++ items.map (fun p => Ev.printLine (podLine p))

/-- `getPodRunningStatus` from health.go: unfiltered listing in one
namespace, partitioned into running / not-running pods.  On a listing
error it logs an Error and keeps going with the empty item list. -/
def getPodRunningStatus (listPods : String → String → Except String (List PodRecord))
    (ns : String) : List Ev × List PodRecord × List PodRecord :=
  match listPods ns "" with
  | .error e =>
      ([Ev.error ("\nfailed to list pods in namespace " ++ ns ++ ": " ++ e ++ "\n")], [], [])
  | .ok items =>
      let part := items.partition (fun p => p.phase = PodRunning)
      ([], part.1, part.2)

/-- `CheckAllPodsStatus` from health.go: the full pod census.  Returns the
event trace together with the list of namespaces queried (in query order),
recording that the cluster namespace is queried only when it differs from
the operator namespace. -/
def CheckAllPodsStatus (listPods : String → String → Except String (List PodRecord))
    (operatorNamespace clusterNamespace : String) : List Ev × List String :=
  let first := getPodRunningStatus listPods operatorNamespace
  let combined : List Ev × List String × List PodRecord × List PodRecord :=
    if operatorNamespace ≠ clusterNamespace then
      let second := getPodRunningStatus listPods clusterNamespace
      (first.1 ++ second.1, [operatorNamespace, clusterNamespace],
        first.2.1 ++ second.2.1, first.2.2 ++ second.2.2)
    else
      (first.1, [operatorNamespace], first.2.1, first.2.2)
  (combined.1 ++
    (Ev.info "Pods that are in \x27Running\x27 status" ::
      combined.2.2.1.map (fun p => Ev.printLine (podLine p))) ++
    (Ev.blank :: Ev.warning "Pods that are \x27Not\x27 in \x27Running\x27 status" ::
      combined.2.2.2.map (fun p => Ev.printLine (podLine p))),
    combined.2.1)

/-- `checkMgrPodsStatusAndCounts` from health.go: mgr minimum-count check.
Unlike the other censuses, on a listing error it logs the Error and
RETURNS immediately (no warning, no listing lines). -/
def checkMgrPodsStatusAndCounts (listPods : String → String → Except String (List PodRecord))
    (clusterNamespace : String) : List Ev :=
  match listPods clusterNamespace "app=rook-ceph-mgr" with
  | .error e =>
      [Ev.error ("\nfailed to list mgr pods with label app=rook-ceph-mgr: " ++ e ++ "\n")]
  | .ok items =>
      (if items.length < 1 then [Ev.warning "At least one mgr pod should be running"] else []) ++
        items.map (fun p => Ev.printLine (podLine p))

/-- The base64 standard alphabet: the ASCII code of the character for a
six-bit value (Go `base64.StdEncoding`). -/
def b64Char (n : Nat) : Nat :=
  if n < 26 then 65 + n
  else if n < 52 then 97 + (n - 26)
  else if n < 62 then 48 + (n - 52)
  else if n = 62 then 43
  else 47

/-- Inverse of the base64 standard alphabet: the six-bit value of an ASCII
code, or `none` for a character outside the alphabet. -/
def b64Val (c : Nat) : Option Nat :=
  if 65 ≤ c ∧ c ≤ 90 then some (c - 65)
  else if 97 ≤ c ∧ c ≤ 122 then some (26 + (c - 97))
  else if 48 ≤ c ∧ c ≤ 57 then some (52 + (c - 48))
  else if c = 43 then some 62
  else if c = 47 then some 63
  else none

/-- The ASCII code of the base64 padding character. -/
def b64Pad : Nat := 61

/-- Go `base64.StdEncoding.EncodeToString` on a byte list, producing the
ASCII codes of the encoded text (with padding). -/
def base64Encode : List Nat → List Nat
  | [] => []
  | [b1] => [b64Char (b1 / 4), b64Char (b1 % 4 * 16), b64Pad, b64Pad]
  | [b1, b2] => [b64Char (b1 / 4), b64Char (b1 % 4 * 16 + b2 / 16), b64Char (b2 % 16 * 4), b64Pad]
  | b1 :: b2 :: b3 :: rest =>
      b64Char (b1 / 4) :: b64Char (b1 % 4 * 16 + b2 / 16) ::
        b64Char (b2 % 16 * 4 + b3 / 64) :: b64Char (b3 % 64) :: base64Encode rest

/-- Go `base64.StdEncoding.DecodeString` (strict decoding): four-character
quanta, padding only in the final quantum, trailing bits must be zero;
yields the decoded bytes or a corrupt-input error. -/
def base64Decode : List Nat → Except String (List Nat)
  | [] => Except.ok []
  | c1 :: c2 :: c3 :: c4 :: rest =>
    match b64Val c1, b64Val c2 with
    | some v1, some v2 =>
      if c3 = b64Pad ∧ c4 = b64Pad ∧ rest = [] then
        if v2 % 16 = 0 then Except.ok [v1 * 4 + v2 / 16]
        else Except.error "illegal base64 data"
      else if c4 = b64Pad ∧ rest = [] then
        match b64Val c3 with
        | some v3 =>
            if v3 % 4 = 0 then Except.ok [v1 * 4 + v2 / 16, v2 % 16 * 16 + v3 / 4]
            else Except.error "illegal base64 data"
        | none => Except.error "illegal base64 data"
      else
        match b64Val c3, b64Val c4 with
        | some v3, some v4 =>
          match base64Decode rest with
          | Except.ok tail =>
              Except.ok ((v1 * 4 + v2 / 16) :: (v2 % 16 * 16 + v3 / 4) :: (v3 % 4 * 64 + v4) :: tail)
          | Except.error e => Except.error e
        | _, _ => Except.error "illegal base64 data"
    | _, _ => Except.error "illegal base64 data"
  | _ => Except.error "illegal base64 data length"

/-- `unMarshalCephStatus` from health.go, given the JSON decoding oracle and
the raw fetcher output (`cephStatusOut` as bytes): base64-encode the raw
text, immediately base64-decode it, then JSON-unmarshal.  `logging.Fatal`
is modelled by an `Ev.fatal` event together with an `Except.error` result.
Modelled from the spec: `logging.Fatal` (package `pkg/logging`, not under
analysis here) logs the error and terminates the whole process. -/
def unMarshalCephStatus (jsonDecode : List Nat → Except String cephStatus)
    (raw : List Nat) : List Ev × Except Unit (String × List PgStateEntry) :=
  let ecodedText := base64Encode raw
  match base64Decode ecodedText with
  | Except.error e => ([Ev.fatal e], Except.error ())
  | Except.ok decodeCephStatus =>
    match jsonDecode decodeCephStatus with
    | Except.error e => ([Ev.fatal e], Except.error ())
    | Except.ok cs => ([], Except.ok (cs.health.status, cs.pgMap.pgsByState))

/-- `checkMonQuorum` from health.go: fetch and decode the cluster status
and classify the overall-health string.  The boolean is true when the
process terminated fatally inside the decode. -/
def checkMonQuorum (jsonDecode : List Nat → Except String cephStatus)
    (raw : List Nat) : List Ev × Bool :=
  match unMarshalCephStatus jsonDecode raw with
  | (evs, Except.error _) => (evs, true)
  | (evs, Except.ok (cephHealthDetails, _)) =>
      (evs ++
        (if cephHealthDetails = "HEALTH_OK" then [Ev.info cephHealthDetails]
         else if cephHealthDetails = "HEALTH_WARN" then [Ev.warning cephHealthDetails]
         else if cephHealthDetails = "HEALTH_ERR" then [Ev.error cephHealthDetails]
         else []), false)

/-- The loop body of `checkPgStatus` from health.go: classify one
placement-group state entry into exactly one leveled log line. -/
def pgStateEv (pgStatus : PgStateEntry) : Ev :=
  let msg := "\tPgState: " ++ pgStatus.stateName ++ ", PgCount: " ++ toString pgStatus.count
  if pgStatus.stateName = "active+clean" then Ev.info msg
  else if goContains pgStatus.stateName "down" || goContains pgStatus.stateName "incomplete" ||
      goContains pgStatus.stateName "snaptrim_error" then Ev.error msg
  else Ev.warning msg

/-- `checkPgStatus` from health.go: a second, independent fetch and decode,
then per-entry classification.  The boolean is true when the process
terminated fatally inside the decode. -/
def checkPgStatus (jsonDecode : List Nat → Except String cephStatus)
    (raw : List Nat) : List Ev × Bool :=
  match unMarshalCephStatus jsonDecode raw with
  | (evs, Except.error _) => (evs, true)
  | (evs, Except.ok (_, pgStateEntryList)) =>
      (evs ++ pgStateEntryList.map pgStateEv, false)

/-- `Health` from health.go: the evaluator.  `fetch1` and `fetch2` are the
raw outputs of the first (quorum check) and second (placement-group check)
`ceph -s` fetches.  A fatal decode terminates the process, so everything
after the fatal event is cut off. -/
def Health (listPods : String → String → Except String (List PodRecord))
    (jsonDecode : List Nat → Except String cephStatus)
    (fetch1 fetch2 : List Nat) (operatorNamespace clusterNamespace : String) : List Ev :=
  let evMon := Ev.info "Checking if at least three mon pods are running on different nodes" ::
    checkPodsOnNodes listPods clusterNamespace "app=rook-ceph-mon"
  let quorum := checkMonQuorum jsonDecode fetch1
  let evQuorum := Ev.blank :: Ev.info "Checking mon quorum and ceph health details" :: quorum.1
  if quorum.2 then evMon ++ evQuorum
  else
    let evOsd := Ev.blank :: Ev.info "Checking if at least three osd pods are running on different nodes" ::
      checkPodsOnNodes listPods clusterNamespace "app=rook-ceph-osd"
    let evCensus := Ev.blank :: (CheckAllPodsStatus listPods operatorNamespace clusterNamespace).1
    let pg := checkPgStatus jsonDecode fetch2
    let evPg := Ev.blank :: Ev.info "Checking placement group status" :: pg.1
    if pg.2 then evMon ++ evQuorum ++ evOsd ++ evCensus ++ evPg
    else evMon ++ evQuorum ++ evOsd ++ evCensus ++ evPg ++
      (Ev.blank :: Ev.info "Checking if at least one mgr pod is running" ::
        checkMgrPodsStatusAndCounts listPods clusterNamespace)

/-! ## Substring semantics of `goContains` -/

theorem startsWithList_iff (sub l : List Char) :
    startsWithList l sub = true ↔ ∃ rest, l = sub ++ rest := by
  induction sub generalizing l with
  | nil => simp [startsWithList]
  | cons d ds ih =>
      cases l with
      | nil => simp [startsWithList]
      | cons c cs =>
          simp [startsWithList, ih]

theorem containsSubList_iff (sub l : List Char) :
    containsSubList sub l = true ↔ ∃ pre post, l = pre ++ sub ++ post := by
  induction l with
  | nil =>
      simp [containsSubList, startsWithList_iff]
  | cons c cs ih =>
      simp only [containsSubList, Bool.or_eq_true, startsWithList_iff, ih]
      constructor
      · rintro (⟨rest, hrest⟩ | ⟨pre, post, hsplit⟩)
        · exact ⟨[], rest, by simp [hrest]⟩
        · exact ⟨c :: pre, post, by simp [hsplit]⟩
      · rintro ⟨pre, post, hsplit⟩
        cases pre with
        | nil => exact Or.inl ⟨post, by simpa using hsplit⟩
        | cons p ps =>
            simp only [List.cons_append, List.cons.injEq] at hsplit
            exact Or.inr ⟨ps, post, hsplit.2⟩

theorem goContains_iff (s sub : String) :
    goContains s sub = true ↔ ∃ pre post, s.data = pre ++ sub.data ++ post :=
  containsSubList_iff sub.data s.data

/-! ## Claim theorems -/

/-- C1: every placement-group state entry is assigned exactly one severity:
a state name exactly equal to "active+clean" is classified Info; otherwise a
name containing "down", "incomplete" or "snaptrim_error" as a substring is
classified Error; every other name is classified Warning. -/
theorem pgStateEv_classification (e : PgStateEntry) :
    (e.stateName = "active+clean" → Ev.isInfo (pgStateEv e) = true) ∧
    (e.stateName ≠ "active+clean" →
      (∃ sub ∈ ["down", "incomplete", "snaptrim_error"],
        ∃ pre post, e.stateName.data = pre ++ String.data sub ++ post) →
      Ev.isError (pgStateEv e) = true) ∧
    (e.stateName ≠ "active+clean" →
      (∀ sub ∈ ["down", "incomplete", "snaptrim_error"],
        ¬ ∃ pre post, e.stateName.data = pre ++ String.data sub ++ post) →
      Ev.isWarning (pgStateEv e) = true) := by
  refine ⟨fun h => by simp [pgStateEv, h, Ev.isInfo], fun hne hsub => ?_, fun hne hnsub => ?_⟩
  · have hor : goContains e.stateName "down" = true ∨
        goContains e.stateName "incomplete" = true ∨
        goContains e.stateName "snaptrim_error" = true := by
      rcases hsub with ⟨sub, hmem, hdecomp⟩
      simp only [List.mem_cons, List.mem_singleton, List.not_mem_nil, or_false] at hmem
      rcases hmem with rfl | rfl | rfl
      · exact Or.inl ((goContains_iff _ _).mpr hdecomp)
      · exact Or.inr (Or.inl ((goContains_iff _ _).mpr hdecomp))
      · exact Or.inr (Or.inr ((goContains_iff _ _).mpr hdecomp))
    rcases hor with h | h | h <;> simp [pgStateEv, hne, h, Ev.isError]
  · have h1 : goContains e.stateName "down" = false := by
      rw [Bool.eq_false_iff, Ne, goContains_iff]
      exact hnsub "down" (by simp)
    have h2 : goContains e.stateName "incomplete" = false := by
      rw [Bool.eq_false_iff, Ne, goContains_iff]
      exact hnsub "incomplete" (by simp)
    have h3 : goContains e.stateName "snaptrim_error" = false := by
      rw [Bool.eq_false_iff, Ne, goContains_iff]
      exact hnsub "snaptrim_error" (by simp)
    simp [pgStateEv, hne, h1, h2, h3, Ev.isWarning]

/-- Witness for C1: the composite state "active+undersized+degraded+down"
is classified Error, not Warning. -/
theorem pgStateEv_classification_witness :
    Ev.isError (pgStateEv ⟨"active+undersized+degraded+down", 7⟩) = true :=
  (pgStateEv_classification ⟨"active+undersized+degraded+down", 7⟩).2.1 (by decide)
    ⟨"down", by simp, ("active+undersized+degraded+").data, [], by decide⟩

/-- C2: when the decode succeeds, the quorum/overall-health check emits
exactly one message for each recognized value — "HEALTH_OK" to Info,
"HEALTH_WARN" to Warning, "HEALTH_ERR" to Error — and emits nothing for any
other decoded string. -/
theorem checkMonQuorum_classification (jsonDecode : List Nat → Except String cephStatus)
    (raw : List Nat) (s : String) (pgs : List PgStateEntry)
    (hdec : unMarshalCephStatus jsonDecode raw = ([], Except.ok (s, pgs))) :
    (s = "HEALTH_OK" → checkMonQuorum jsonDecode raw = ([Ev.info s], false)) ∧
    (s = "HEALTH_WARN" → checkMonQuorum jsonDecode raw = ([Ev.warning s], false)) ∧
    (s = "HEALTH_ERR" → checkMonQuorum jsonDecode raw = ([Ev.error s], false)) ∧
    (s ≠ "HEALTH_OK" → s ≠ "HEALTH_WARN" → s ≠ "HEALTH_ERR" →
      checkMonQuorum jsonDecode raw = ([], false)) := by
  refine ⟨fun h => ?_, fun h => ?_, fun h => ?_, fun h1 h2 h3 => ?_⟩ <;>
    simp [checkMonQuorum, hdec, *]

/-- Witness for C2 at a concrete decoder returning "HEALTH_WARN". -/
theorem checkMonQuorum_classification_witness :
    checkMonQuorum (fun _ => Except.ok ⟨⟨[]⟩, ⟨"HEALTH_WARN"⟩⟩) [] =
      ([Ev.warning "HEALTH_WARN"], false) :=
  (checkMonQuorum_classification (fun _ => Except.ok ⟨⟨[]⟩, ⟨"HEALTH_WARN"⟩⟩)
    [] "HEALTH_WARN" [] rfl).2.1 rfl

/-- C8: the manager pod count check queries role=mgr pods in the cluster
namespace only; with zero matching pods it emits exactly one Warning and no
listing line; otherwise it prints one listing line per matching pod and no
Warning. -/
theorem checkMgrPodsStatusAndCounts_ok
    (listPods : String → String → Except String (List PodRecord))
    (clusterNamespace : String) (items : List PodRecord)
    (hq : listPods clusterNamespace "app=rook-ceph-mgr" = Except.ok items) :
    (items.length < 1 →
      checkMgrPodsStatusAndCounts listPods clusterNamespace =
        [Ev.warning "At least one mgr pod should be running"]) ∧
    (1 ≤ items.length →
      checkMgrPodsStatusAndCounts listPods clusterNamespace =
        items.map (fun p => Ev.printLine (podLine p))) := by
  constructor
  · intro h
    have : items = [] := List.length_eq_zero.mp (by omega)
    simp [checkMgrPodsStatusAndCounts, hq, this]
  · intro h
    have : ¬ items.length < 1 := by omega
    simp [checkMgrPodsStatusAndCounts, hq, this]

/-- Witness for C8: zero mgr pods give exactly the one warning, one mgr pod
gives exactly its listing line. -/
theorem checkMgrPodsStatusAndCounts_ok_witness :
    checkMgrPodsStatusAndCounts (fun _ _ => Except.ok []) "rook-ceph" =
      [Ev.warning "At least one mgr pod should be running"] :=
  (checkMgrPodsStatusAndCounts_ok (fun _ _ => Except.ok []) "rook-ceph" [] rfl).1
    (by decide)

/-- Counterexample to C5: when the mgr listing query fails, the manager
count check logs the Error and returns immediately — it does not proceed
with an empty pod list (proceeding would additionally emit the
minimum-count Warning, as the empty-list case of the check does). -/
theorem checkMgrPods_error_aborts :
    checkMgrPodsStatusAndCounts (fun _ _ => Except.error "boom") "rook-ceph" =
      [Ev.error "\nfailed to list mgr pods with label app=rook-ceph-mgr: boom\n"] := rfl

/-- C5 (amended): on a failed pod-listing query, the role node-distribution
check and the per-namespace census log an Error and proceed with an empty
pod list, while the manager count check logs the Error and returns
immediately, emitting neither its warning nor any listing line. -/
theorem census_query_failure_behaviour
    (listPods : String → String → Except String (List PodRecord))
    (ns label e : String) :
    (listPods ns label = Except.error e →
      checkPodsOnNodes listPods ns label =
        (let daemonType := if goContains label "osd" then "osd"
          else if goContains label "mon" then "mon" else ""
        [Ev.error ("failed to list " ++ daemonType ++ " pods with label " ++ label ++ ": " ++ e),
          Ev.warning ("At least three " ++ daemonType ++ " pods should running on different nodes\n")])) ∧
    (listPods ns "" = Except.error e →
      getPodRunningStatus listPods ns =
        ([Ev.error ("\nfailed to list pods in namespace " ++ ns ++ ": " ++ e ++ "\n")], [], [])) ∧
    (listPods ns "app=rook-ceph-mgr" = Except.error e →
      checkMgrPodsStatusAndCounts listPods ns =
        [Ev.error ("\nfailed to list mgr pods with label app=rook-ceph-mgr: " ++ e ++ "\n")]) := by
  refine ⟨fun h => ?_, fun h => ?_, fun h => ?_⟩ <;>
    simp [checkPodsOnNodes, getPodRunningStatus, checkMgrPodsStatusAndCounts, h, buildNodeList]

/-- Witness for the amended C5 at a concrete always-failing client. -/
theorem census_query_failure_behaviour_witness :
    checkPodsOnNodes (fun _ _ => Except.error "boom") "rook-ceph" "app=rook-ceph-mon" =
      [Ev.error "failed to list mon pods with label app=rook-ceph-mon: boom",
        Ev.warning "At least three mon pods should running on different nodes\n"] :=
  (census_query_failure_behaviour (fun _ _ => Except.error "boom")
    "rook-ceph" "app=rook-ceph-mon" "boom").1 rfl

theorem length_filter_add_length_filter_not {α : Type} (p : α → Bool) (l : List α) :
    (l.filter p).length + (l.filter (fun a => !(p a))).length = l.length := by
  induction l with
  | nil => rfl
  | cons a t ih =>
      cases h : p a <;> simp [List.filter_cons, h, ← ih] <;> omega

/-- C6: with a successful listing, the node-distribution check emits
exactly one Warning when the distinct-node count is below three (none
otherwise) and always prints exactly one listing line per pod. -/
theorem checkPodsOnNodes_output
    (listPods : String → String → Except String (List PodRecord))
    (ns label : String) (items : List PodRecord)
    (hq : listPods ns label = Except.ok items) :
    ((checkPodsOnNodes listPods ns label).filter Ev.isWarning).length =
      (if (buildNodeList items).length < 3 then 1 else 0) ∧
    (checkPodsOnNodes listPods ns label).filter Ev.isPrintLine =
      items.map (fun p => Ev.printLine (podLine p)) := by
  have hmapP : (items.map fun p => Ev.printLine (podLine p)).filter Ev.isPrintLine
      = items.map fun p => Ev.printLine (podLine p) :=
    List.filter_eq_self.mpr (by
      intro a ha
      rcases List.mem_map.mp ha with ⟨p, _, rfl⟩
      rfl)
  have hmapW : (items.map fun p => Ev.printLine (podLine p)).filter Ev.isWarning = [] :=
    List.filter_eq_nil_iff.mpr (by
      intro a ha
      rcases List.mem_map.mp ha with ⟨p, _, rfl⟩
      simp [Ev.isWarning])
  by_cases hlt : (buildNodeList items).length < 3 <;>
    simp [checkPodsOnNodes, hq, hlt, List.filter_append, hmapP, hmapW,
      Ev.isWarning, Ev.isPrintLine]

/-- Witness for C6: one pod on one node yields one warning and one listing
line. -/
theorem checkPodsOnNodes_output_witness :
    ((checkPodsOnNodes (fun _ _ => Except.ok [⟨"a", "Running", "ns", "n1"⟩])
        "ns" "app=rook-ceph-mon").filter Ev.isWarning).length = 1 ∧
    (checkPodsOnNodes (fun _ _ => Except.ok [⟨"a", "Running", "ns", "n1"⟩])
        "ns" "app=rook-ceph-mon").filter Ev.isPrintLine =
      [Ev.printLine (podLine ⟨"a", "Running", "ns", "n1"⟩)] := by
  have h := checkPodsOnNodes_output (fun _ _ => Except.ok [⟨"a", "Running", "ns", "n1"⟩])
    "ns" "app=rook-ceph-mon" [⟨"a", "Running", "ns", "n1"⟩] rfl
  exact ⟨by rw [h.1]; decide, h.2⟩

/-- C7: the full pod census queries the cluster namespace only when it
differs from the operator namespace; with equal namespaces exactly one
query is made and the listing-line total equals that single namespace's pod
count. -/
theorem CheckAllPodsStatus_namespaces
    (listPods : String → String → Except String (List PodRecord))
    (ns : String) (items : List PodRecord)
    (hq : listPods ns "" = Except.ok items) :
    (CheckAllPodsStatus listPods ns ns).2 = [ns] ∧
    ((CheckAllPodsStatus listPods ns ns).1.filter Ev.isPrintLine).length = items.length ∧
    (∀ opNs clNs : String, opNs ≠ clNs →
      (CheckAllPodsStatus listPods opNs clNs).2 = [opNs, clNs]) := by
  have hmapP : ∀ l : List PodRecord,
      (l.map fun p => Ev.printLine (podLine p)).filter Ev.isPrintLine
        = l.map fun p => Ev.printLine (podLine p) := fun l =>
    List.filter_eq_self.mpr (by
      intro a ha
      rcases List.mem_map.mp ha with ⟨p, _, rfl⟩
      rfl)
  refine ⟨by simp [CheckAllPodsStatus], ?_, fun opNs clNs h => by simp [CheckAllPodsStatus, h]⟩
  simp [CheckAllPodsStatus, getPodRunningStatus, hq, List.filter_append, hmapP,
    Ev.isPrintLine, List.partition_eq_filter_filter]
  exact length_filter_add_length_filter_not _ items

/-- Witness for C7 at a two-pod namespace. -/
theorem CheckAllPodsStatus_namespaces_witness :
    (CheckAllPodsStatus
        (fun _ _ => Except.ok [⟨"a", "Running", "ns", "n1"⟩, ⟨"b", "Pending", "ns", "n2"⟩])
        "ns" "ns").2 = ["ns"] ∧
    ((CheckAllPodsStatus
        (fun _ _ => Except.ok [⟨"a", "Running", "ns", "n1"⟩, ⟨"b", "Pending", "ns", "n2"⟩])
        "ns" "ns").1.filter Ev.isPrintLine).length = 2 :=
  ⟨(CheckAllPodsStatus_namespaces _ "ns" [⟨"a", "Running", "ns", "n1"⟩, ⟨"b", "Pending", "ns", "n2"⟩] rfl).1,
    (CheckAllPodsStatus_namespaces _ "ns" [⟨"a", "Running", "ns", "n1"⟩, ⟨"b", "Pending", "ns", "n2"⟩] rfl).2.1⟩

theorem foldl_nodeListStep_mem (items : List PodRecord) (acc : List (String × String))
    (s : String) :
    s ∈ (items.foldl nodeListStep acc).map Prod.fst ↔
      s ∈ acc.map Prod.fst ∨ s ∈ items.map PodRecord.nodeName := by
  induction items generalizing acc with
  | nil => simp
  | cons p t ih =>
      simp only [List.foldl_cons, List.map_cons, List.mem_cons]
      rw [ih]
      by_cases hmem : p.nodeName ∈ acc.map Prod.fst
      · simp only [nodeListStep, if_pos hmem]
        constructor
        · rintro (h | h)
          · exact Or.inl h
          · exact Or.inr (Or.inr h)
        · rintro (h | rfl | h)
          · exact Or.inl h
          · exact Or.inl hmem
          · exact Or.inr h
      · simp [nodeListStep, hmem, or_assoc]

theorem foldl_nodeListStep_nodup (items : List PodRecord) (acc : List (String × String))
    (hacc : (acc.map Prod.fst).Nodup) :
    ((items.foldl nodeListStep acc).map Prod.fst).Nodup := by
  induction items generalizing acc with
  | nil => exact hacc
  | cons p t ih =>
      simp only [List.foldl_cons]
      apply ih
      by_cases hmem : p.nodeName ∈ acc.map Prod.fst
      · simpa [nodeListStep, hmem] using hacc
      · simp [nodeListStep, hmem, List.nodup_append, hacc]

/-- C10: the distinct-node count of the node-distribution check counts the
node-name strings of all returned pods, regardless of phase; unscheduled
pods (empty node name) collectively contribute the one distinct key "". -/
theorem buildNodeList_distinct_nodes (items : List PodRecord) :
    ((buildNodeList items).map Prod.fst).Nodup ∧
    (∀ s : String, s ∈ (buildNodeList items).map Prod.fst ↔ s ∈ items.map PodRecord.nodeName) ∧
    (buildNodeList items).length = (items.map PodRecord.nodeName).toFinset.card ∧
    (∀ f : PodRecord → String,
      buildNodeList (items.map fun p => { p with phase := f p }) = buildNodeList items) := by
  have hnodup : ((buildNodeList items).map Prod.fst).Nodup :=
    foldl_nodeListStep_nodup items [] (by simp)
  have hmem : ∀ s : String,
      s ∈ (buildNodeList items).map Prod.fst ↔ s ∈ items.map PodRecord.nodeName := by
    intro s
    simpa using foldl_nodeListStep_mem items [] s
  refine ⟨hnodup, hmem, ?_, ?_⟩
  · have hfin : ((buildNodeList items).map Prod.fst).toFinset =
        (items.map PodRecord.nodeName).toFinset := by
      ext s
      simp only [List.mem_toFinset]
      exact hmem s
    calc (buildNodeList items).length
        = ((buildNodeList items).map Prod.fst).length := (List.length_map _ _).symm
      _ = ((buildNodeList items).map Prod.fst).toFinset.card :=
          (List.toFinset_card_of_nodup hnodup).symm
      _ = (items.map PodRecord.nodeName).toFinset.card := by rw [hfin]
  · intro f
    unfold buildNodeList
    rw [List.foldl_map]
    congr 1

/-- Witness-style concrete check for C10: two unscheduled pods and one
scheduled pod give two distinct node keys, one of them the empty name. -/
theorem buildNodeList_distinct_nodes_witness :
    (buildNodeList [⟨"a", "Pending", "ns", ""⟩, ⟨"b", "Pending", "ns", ""⟩,
        ⟨"c", "Running", "ns", "n1"⟩]).length = 2 ∧
    "" ∈ (buildNodeList [⟨"a", "Pending", "ns", ""⟩, ⟨"b", "Pending", "ns", ""⟩,
        ⟨"c", "Running", "ns", "n1"⟩]).map Prod.fst := by
  constructor
  · decide
  · exact (buildNodeList_distinct_nodes _).2.1 "" |>.mpr (by simp)

theorem unMarshalCephStatus_cases (jsonDecode : List Nat → Except String cephStatus)
    (raw : List Nat) :
    (∃ e, unMarshalCephStatus jsonDecode raw = ([Ev.fatal e], Except.error ())) ∨
    (∃ s pgs, unMarshalCephStatus jsonDecode raw = ([], Except.ok (s, pgs))) := by
  unfold unMarshalCephStatus
  rcases hb : base64Decode (base64Encode raw) with e | bytes
  · exact Or.inl ⟨e, by simp [hb]⟩
  · rcases hj : jsonDecode bytes with e | cs
    · exact Or.inl ⟨e, by simp [hb, hj]⟩
    · exact Or.inr ⟨cs.health.status, cs.pgMap.pgsByState, by simp [hb, hj]⟩

theorem checkMonQuorum_fatal_shape (jsonDecode : List Nat → Except String cephStatus)
    (raw : List Nat) (h : (checkMonQuorum jsonDecode raw).2 = true) :
    ∃ e, (checkMonQuorum jsonDecode raw).1 = [Ev.fatal e] := by
  rcases unMarshalCephStatus_cases jsonDecode raw with ⟨e, hu⟩ | ⟨s, pgs, hu⟩
  · exact ⟨e, by simp [checkMonQuorum, hu]⟩
  · exact absurd h (by simp [checkMonQuorum, hu])

theorem checkPodsOnNodes_no_info
    (listPods : String → String → Except String (List PodRecord))
    (ns label msg : String) :
    Ev.info msg ∉ checkPodsOnNodes listPods ns label := by
  intro hmem
  rcases hq : listPods ns label with e | items <;>
    simp only [checkPodsOnNodes, hq, List.mem_append, List.mem_cons, List.mem_map,
      List.not_mem_nil, List.mem_singleton] at hmem <;>
    rcases hmem with (h1 | h1) | h1 <;>
    first
      | exact h1.elim
      | simp at h1

/-- Counterexample to C3: with a decoder that rejects every payload, the
run dies fatally inside check 2 and check 4 never runs (its banner is
absent from the trace). -/
theorem health_malformed_check2_counterexample :
    Ev.fatal "bad payload" ∈
      Health (fun _ _ => Except.ok []) (fun _ => Except.error "bad payload") [] [] "op" "cl" ∧
    Ev.info "Checking placement group status" ∉
      Health (fun _ _ => Except.ok []) (fun _ => Except.error "bad payload") [] [] "op" "cl" := by
  decide

/-- C3 (amended): a malformed payload in check 2 terminates the run through
the fatal path, so check 4 never runs; when check 2's payload decodes
successfully, check 4 runs and performs its own, independent fetch and
decode on the second fetch result. -/
theorem health_decode_failure_scoping
    (listPods : String → String → Except String (List PodRecord))
    (jsonDecode : List Nat → Except String cephStatus)
    (fetch1 fetch2 : List Nat) (opNs clNs : String) :
    ((checkMonQuorum jsonDecode fetch1).2 = true →
      Ev.info "Checking placement group status" ∉
        Health listPods jsonDecode fetch1 fetch2 opNs clNs) ∧
    ((checkMonQuorum jsonDecode fetch1).2 = false →
      ∃ pre post, Health listPods jsonDecode fetch1 fetch2 opNs clNs =
        pre ++ (Ev.info "Checking placement group status" ::
          (checkPgStatus jsonDecode fetch2).1) ++ post) := by
  constructor
  · intro h hmem
    rcases checkMonQuorum_fatal_shape jsonDecode fetch1 h with ⟨e, hq1⟩
    simp only [Health, h, if_true, List.mem_append, List.mem_cons, hq1,
      List.mem_singleton, List.not_mem_nil] at hmem
    rcases hmem with (h1 | h1) | h1 | h1 | h1 | h1 <;>
      first
        | exact checkPodsOnNodes_no_info listPods clNs "app=rook-ceph-mon"
            "Checking placement group status" h1
        | exact h1.elim
        | simp at h1
  · intro h
    by_cases hpg : (checkPgStatus jsonDecode fetch2).2
    · refine ⟨(Ev.info "Checking if at least three mon pods are running on different nodes" ::
          checkPodsOnNodes listPods clNs "app=rook-ceph-mon") ++
        (Ev.blank :: Ev.info "Checking mon quorum and ceph health details" ::
          (checkMonQuorum jsonDecode fetch1).1) ++
        (Ev.blank :: Ev.info "Checking if at least three osd pods are running on different nodes" ::
          checkPodsOnNodes listPods clNs "app=rook-ceph-osd") ++
        (Ev.blank :: (CheckAllPodsStatus listPods opNs clNs).1) ++ [Ev.blank], [], ?_⟩
      simp [Health, h, hpg]
    · refine ⟨(Ev.info "Checking if at least three mon pods are running on different nodes" ::
          checkPodsOnNodes listPods clNs "app=rook-ceph-mon") ++
        (Ev.blank :: Ev.info "Checking mon quorum and ceph health details" ::
          (checkMonQuorum jsonDecode fetch1).1) ++
        (Ev.blank :: Ev.info "Checking if at least three osd pods are running on different nodes" ::
          checkPodsOnNodes listPods clNs "app=rook-ceph-osd") ++
        (Ev.blank :: (CheckAllPodsStatus listPods opNs clNs).1) ++ [Ev.blank],
        Ev.blank :: Ev.info "Checking if at least one mgr pod is running" ::
          checkMgrPodsStatusAndCounts listPods clNs, ?_⟩
      simp [Health, h, hpg]

/-- Witness for the amended C3: with a succeeding decoder, check 4's banner
and classification appear in the run. -/
theorem health_decode_failure_scoping_witness :
    ∃ pre post,
      Health (fun _ _ => Except.ok []) (fun _ => Except.ok ⟨⟨[]⟩, ⟨"HEALTH_OK"⟩⟩)
          [] [] "op" "cl" =
        pre ++ (Ev.info "Checking placement group status" ::
          (checkPgStatus (fun _ => Except.ok ⟨⟨[]⟩, ⟨"HEALTH_OK"⟩⟩) []).1) ++ post :=
  (health_decode_failure_scoping (fun _ _ => Except.ok [])
    (fun _ => Except.ok ⟨⟨[]⟩, ⟨"HEALTH_OK"⟩⟩) [] [] "op" "cl").2 rfl

/-- Counterexample to C4: in a concrete fault-free run, the quorum check's
banner appears before the osd node-distribution check's banner, so the two
node-distribution checks do not both precede the quorum check. -/
theorem health_order_counterexample :
    (Health (fun _ _ => Except.ok []) (fun _ => Except.ok ⟨⟨[]⟩, ⟨"HEALTH_OK"⟩⟩)
        [] [] "ns" "ns").indexOf (Ev.info "Checking mon quorum and ceph health details") <
      (Health (fun _ _ => Except.ok []) (fun _ => Except.ok ⟨⟨[]⟩, ⟨"HEALTH_OK"⟩⟩)
        [] [] "ns" "ns").indexOf
        (Ev.info "Checking if at least three osd pods are running on different nodes") := by
  decide

/-- C4 (amended): the evaluator runs its checks in the fixed order
mon node-distribution, quorum/overall-health, osd node-distribution, full
pod census, placement-group classification, manager count; when neither
status decode terminates fatally, every check runs regardless of the other
checks' outcomes. -/
theorem health_check_order
    (listPods : String → String → Except String (List PodRecord))
    (jsonDecode : List Nat → Except String cephStatus)
    (fetch1 fetch2 : List Nat) (opNs clNs : String)
    (h1 : (checkMonQuorum jsonDecode fetch1).2 = false)
    (h2 : (checkPgStatus jsonDecode fetch2).2 = false) :
    Health listPods jsonDecode fetch1 fetch2 opNs clNs =
      (Ev.info "Checking if at least three mon pods are running on different nodes" ::
        checkPodsOnNodes listPods clNs "app=rook-ceph-mon") ++
      (Ev.blank :: Ev.info "Checking mon quorum and ceph health details" ::
        (checkMonQuorum jsonDecode fetch1).1) ++
      (Ev.blank :: Ev.info "Checking if at least three osd pods are running on different nodes" ::
        checkPodsOnNodes listPods clNs "app=rook-ceph-osd") ++
      (Ev.blank :: (CheckAllPodsStatus listPods opNs clNs).1) ++
      (Ev.blank :: Ev.info "Checking placement group status" ::
        (checkPgStatus jsonDecode fetch2).1) ++
      (Ev.blank :: Ev.info "Checking if at least one mgr pod is running" ::
        checkMgrPodsStatusAndCounts listPods clNs) := by
  simp [Health, h1, h2]

/-- Witness for the amended C4 at a concrete fault-free environment. -/
theorem health_check_order_witness :
    Health (fun _ _ => Except.ok []) (fun _ => Except.ok ⟨⟨[]⟩, ⟨"HEALTH_OK"⟩⟩)
        [] [] "ns" "ns" =
      (Ev.info "Checking if at least three mon pods are running on different nodes" ::
        checkPodsOnNodes (fun _ _ => Except.ok []) "ns" "app=rook-ceph-mon") ++
      (Ev.blank :: Ev.info "Checking mon quorum and ceph health details" ::
        (checkMonQuorum (fun _ => Except.ok ⟨⟨[]⟩, ⟨"HEALTH_OK"⟩⟩) []).1) ++
      (Ev.blank :: Ev.info "Checking if at least three osd pods are running on different nodes" ::
        checkPodsOnNodes (fun _ _ => Except.ok []) "ns" "app=rook-ceph-osd") ++
      (Ev.blank :: (CheckAllPodsStatus (fun _ _ => Except.ok []) "ns" "ns").1) ++
      (Ev.blank :: Ev.info "Checking placement group status" ::
        (checkPgStatus (fun _ => Except.ok ⟨⟨[]⟩, ⟨"HEALTH_OK"⟩⟩) []).1) ++
      (Ev.blank :: Ev.info "Checking if at least one mgr pod is running" ::
        checkMgrPodsStatusAndCounts (fun _ _ => Except.ok []) "ns") :=
  health_check_order (fun _ _ => Except.ok []) (fun _ => Except.ok ⟨⟨[]⟩, ⟨"HEALTH_OK"⟩⟩)
    [] [] "ns" "ns" rfl rfl

theorem b64Val_b64Char : ∀ n < 64, b64Val (b64Char n) = some n := by decide

theorem b64Char_ne_pad : ∀ n < 64, b64Char n ≠ b64Pad := by decide

theorem base64_roundtrip (l : List Nat) (h : ∀ b ∈ l, b < 256) :
    base64Decode (base64Encode l) = Except.ok l := by
  induction l using base64Encode.induct with
  | case1 => rfl
  | case2 b1 =>
      have hb1 : b1 < 256 := h b1 (by simp)
      have h1 : b64Val (b64Char (b1 / 4)) = some (b1 / 4) := b64Val_b64Char _ (by omega)
      have h2 : b64Val (b64Char (b1 % 4 * 16)) = some (b1 % 4 * 16) := b64Val_b64Char _ (by omega)
      simp only [base64Encode, base64Decode, h1, h2]
      rw [if_pos (by simp), if_pos (by omega : b1 % 4 * 16 % 16 = 0)]
      have : b1 / 4 * 4 + b1 % 4 * 16 / 16 = b1 := by omega
      rw [this]
  | case3 b1 b2 =>
      have hb1 : b1 < 256 := h b1 (by simp)
      have hb2 : b2 < 256 := h b2 (by simp)
      have h1 : b64Val (b64Char (b1 / 4)) = some (b1 / 4) := b64Val_b64Char _ (by omega)
      have h2 : b64Val (b64Char (b1 % 4 * 16 + b2 / 16)) = some (b1 % 4 * 16 + b2 / 16) :=
        b64Val_b64Char _ (by omega)
      have h3 : b64Val (b64Char (b2 % 16 * 4)) = some (b2 % 16 * 4) := b64Val_b64Char _ (by omega)
      simp only [base64Encode, base64Decode, h1, h2]
      rw [if_neg (fun hc => b64Char_ne_pad (b2 % 16 * 4) (by omega) hc.1)]
      rw [if_pos (by simp)]
      simp only [h3]
      rw [if_pos (by omega : b2 % 16 * 4 % 4 = 0)]
      have e1 : b1 / 4 * 4 + (b1 % 4 * 16 + b2 / 16) / 16 = b1 := by omega
      have e2 : (b1 % 4 * 16 + b2 / 16) % 16 * 16 + b2 % 16 * 4 / 4 = b2 := by omega
      rw [e1, e2]
  | case4 b1 b2 b3 rest ih =>
      have hb1 : b1 < 256 := h b1 (by simp)
      have hb2 : b2 < 256 := h b2 (by simp)
      have hb3 : b3 < 256 := h b3 (by simp)
      have hrest : ∀ b ∈ rest, b < 256 := fun b hb => h b (by simp [hb])
      have h1 : b64Val (b64Char (b1 / 4)) = some (b1 / 4) := b64Val_b64Char _ (by omega)
      have h2 : b64Val (b64Char (b1 % 4 * 16 + b2 / 16)) = some (b1 % 4 * 16 + b2 / 16) :=
        b64Val_b64Char _ (by omega)
      have h3 : b64Val (b64Char (b2 % 16 * 4 + b3 / 64)) = some (b2 % 16 * 4 + b3 / 64) :=
        b64Val_b64Char _ (by omega)
      have h4 : b64Val (b64Char (b3 % 64)) = some (b3 % 64) := b64Val_b64Char _ (by omega)
      simp only [base64Encode, base64Decode, h1, h2]
      rw [if_neg (fun hc => b64Char_ne_pad (b2 % 16 * 4 + b3 / 64) (by omega) hc.1)]
      rw [if_neg (fun hc => b64Char_ne_pad (b3 % 64) (by omega) hc.1)]
      simp only [h3, h4, ih hrest]
      have e1 : b1 / 4 * 4 + (b1 % 4 * 16 + b2 / 16) / 16 = b1 := by omega
      have e2 : (b1 % 4 * 16 + b2 / 16) % 16 * 16 + (b2 % 16 * 4 + b3 / 64) / 4 = b2 := by omega
      have e3 : (b2 % 16 * 4 + b3 / 64) % 4 * 64 + b3 % 64 = b3 := by omega
      rw [e1, e2, e3]

/-- C9: in the status fetch/decode operation, the base64 encode of the
fetched bytes immediately followed by base64 decode is the identity, so the
decode error branch (the first terminating-failure path of
`unMarshalCephStatus`) is unreachable and the bytes handed to the JSON
decoder are exactly the fetcher's output. -/
theorem unMarshalCephStatus_base64_identity
    (jsonDecode : List Nat → Except String cephStatus) (raw : List Nat)
    (h : ∀ b ∈ raw, b < 256) :
    base64Decode (base64Encode raw) = Except.ok raw ∧
    unMarshalCephStatus jsonDecode raw =
      (match jsonDecode raw with
       | Except.error e => ([Ev.fatal e], Except.error ())
       | Except.ok cs => ([], Except.ok (cs.health.status, cs.pgMap.pgsByState))) := by
  have hrt := base64_roundtrip raw h
  refine ⟨hrt, ?_⟩
  unfold unMarshalCephStatus
  simp only []
  rw [hrt]

/-- Witness for C9 on the bytes of "hello". -/
theorem unMarshalCephStatus_base64_identity_witness :
    base64Decode (base64Encode [104, 101, 108, 108, 111]) =
      Except.ok [104, 101, 108, 108, 111] :=
  (unMarshalCephStatus_base64_identity (fun _ => Except.error "malformed")
    [104, 101, 108, 108, 111] (by decide)).1

end KubectlRookCeph
